import Mathlib

/-!
# Air: asset coffer, template comparison functions and configuration

A shallow embedding of `coffer.go`, of the comparison functions of
`renderer.go` and of `NewConfig` of `config.go`, with the properties of the
specification stated and settled over it.

Conventions of the embedding:

* a Go `panic` is the `none` of an `Option` result;
* a Go `(value, error)` result is an `Except Error value`;
* a `[]byte` is a list of byte values (naturals below 256);
* the operating system, `path/filepath`, `fsnotify` and the minifier are not
  part of the repository: one `Init` call runs against one `OS` record whose
  fields give the answer of each external call during that `Init`.
-/

namespace air

/-! ## renderer.go: the template comparison functions -/

/-- The signed integer types accepted by the first case of `lt`. -/
inductive IntKind where
  | int | int8 | int16 | int32 | int64
  deriving DecidableEq, Repr

/-- The unsigned integer types accepted by the second case of `lt`. -/
inductive UintKind where
  | uint | uint8 | uint16 | uint32 | uint64 | uintptr
  deriving DecidableEq, Repr

/-- A Go `interface{}` value as the template functions see it: its dynamic
type and its value. `other` stands for a comparable value of any type outside
the integer and string cases of `lt` (a `bool`, say), identified by a tag.
Floating-point operands are left out of the embedding. -/
inductive Value where
  | int (k : IntKind) (v : Int)
  | uint (k : UintKind) (v : Nat)
  | str (s : String)
  | other (tag : Nat)
  deriving DecidableEq, Repr

/-- The function `eq`: whether `v` is equal to one of the `ovs`. Interface
equality holds when the dynamic types and the values both agree. -/
def eq (v : Value) : List Value → Bool
  | [] => false
  | ov :: ovs => if ov = v then true else eq v ovs

/-- The function `ne`: `!eq(v, ovs...)`. -/
def ne (v : Value) (ovs : List Value) : Bool :=
  !eq v ovs

/-- The function `lt`. The switch is on the dynamic type of `a`;
`reflect.ValueOf(b).Int()` panics unless `b` is of a signed integer type,
`.Uint()` unless it is of an unsigned one, and `b.(string)` unless `b` is a
string. -/
def lt (a b : Value) : Option Bool :=
  match a with
  | .int _ x =>
    match b with
    | .int _ y => some (decide (x < y))
    | _ => none
  | .uint _ x =>
    match b with
    | .uint _ y => some (decide (x < y))
    | _ => none
  | .str s =>
    match b with
    | .str t => some (decide (s < t))
    | _ => none
  | .other _ => none

/-- The function `le`: `lt(a, b) || eq(a, b)`; `eq` is only evaluated when `lt`
returned false. -/
def le (a b : Value) : Option Bool :=
  match lt a b with
  | none => none
  | some true => some true
  | some false => some (eq a [b])

/-- The function `gt`: `!le(a, b)`. -/
def gt (a b : Value) : Option Bool :=
  (le a b).map (fun r => !r)

/-- The function `ge`: its body is `return lt(a, b)`. -/
def ge (a b : Value) : Option Bool :=
  lt a b

/-- Two values are of the same ordered kind: both signed integers, both
unsigned integers, or both strings. -/
def sameOrderedKind : Value → Value → Bool
  | .int _ _, .int _ _ => true
  | .uint _ _, .uint _ _ => true
  | .str _, .str _ => true
  | _, _ => false

/-- What `a >= b` means on two values of the same ordered kind. -/
def geSpec : Value → Value → Option Bool
  | .int _ x, .int _ y => some (decide (y ≤ x))
  | .uint _ x, .uint _ y => some (decide (y ≤ x))
  | .str s, .str t => some (decide (¬ s < t))
  | _, _ => none

/-! ## config.go: `NewConfig` -/

/-- A decoded JSON value, as `encoding/json` stores it in an `interface{}`:
`nil`, `bool`, `float64` (a rational here), `string`, `[]interface{}` or
`map[string]interface{}` (an association list with distinct keys). -/
inductive JSON where
  | null
  | bool (b : Bool)
  | number (q : Rat)
  | string (s : String)
  | array (xs : List JSON)
  | object (kvs : List (String × JSON))

/-- The struct `Config`. `JSON` is `none` for the nil map; `Listener` is `none`
for the nil listener; the two timeouts are `time.Duration` values
(nanoseconds, 64-bit signed). -/
structure Config where
  AppName : String
  JSON : Option (List (String × JSON))
  DebugMode : Bool
  LogFormat : String
  Address : String
  Listener : Option Nat
  TLSCertFile : String
  TLSKeyFile : String
  ReadTimeout : Int
  WriteTimeout : Int
  TemplatesRoot : String

/-- The value `defaultConfig` as `init` sets it. -/
def defaultConfig : Config where
  AppName := ""
  JSON := none
  DebugMode := false
  LogFormat := "\x7b\"app_name\":\"\x7b\x7b.app_name\x7d\x7d\",\"time\":\"\x7b\x7b.time_rfc3339\x7d\x7d\"," ++
    "\"level\":\"\x7b\x7b.level\x7d\x7d\",\"file\":\"\x7b\x7b.short_file\x7d\x7d\",\"line\":\"\x7b\x7b.line\x7d\x7d\"\x7d"
  Address := "localhost:8080"
  Listener := none
  TLSCertFile := ""
  TLSKeyFile := ""
  ReadTimeout := 0
  WriteTimeout := 0
  TemplatesRoot := "templates"

/-- Indexing a Go map of decoded JSON: `nil` (here `none`) when the map is nil,
the key is absent, or the stored value is JSON `null`. -/
def jsonIndex (m : Option (List (String × JSON))) (key : String) : Option JSON :=
  match m with
  | none => none
  | some kvs =>
    match kvs.lookup key with
    | none => none
    | some .null => none
    | some v => some v

/-- The type assertion `v.(map[string]interface{})`; `none` when it panics. A
nil interface (JSON `null`) fails the assertion too. -/
def assertObject : JSON → Option (List (String × JSON))
  | .object kvs => some kvs
  | _ => none

/-- The type assertion `v.(bool)`. -/
def assertBool : JSON → Option Bool
  | .bool b => some b
  | _ => none

/-- The type assertion `v.(string)`. -/
def assertString : JSON → Option String
  | .string s => some s
  | _ => none

/-- The type assertion `v.(float64)`. -/
def assertFloat : JSON → Option Rat
  | .number q => some q
  | _ => none

/-- A 64-bit signed integer after wrap-around. -/
def wrapInt64 (n : Int) : Int :=
  (n + 2 ^ 63) % 2 ^ 64 - 2 ^ 63

/-- The conversion `time.Duration(f)` of a `float64` to a 64-bit signed
integer: the value truncated toward zero when that is within the 64-bit
range. Outside the range Go leaves the result to the implementation; the
value here is the one of amd64, the least 64-bit integer. -/
def floatToInt64 (q : Rat) : Int :=
  let t := Int.tdiv q.num q.den
  if -(2 ^ 63) ≤ t ∧ t < 2 ^ 63 then t else -(2 ^ 63)

/-- The expression `time.Duration(f) * time.Second`: the converted float times
the nanoseconds of a second, with 64-bit wrap-around. -/
def secondsToDuration (q : Rat) : Int :=
  wrapInt64 (floatToInt64 q * 1000000000)

/-- The tail of `NewConfig`: each option present in `c.JSON` overrides the
field of `c`; a value of the wrong JSON type makes the type assertion panic
(`none`). -/
def applyOptions (c : Config) : Option Config :=
  let dm := jsonIndex c.JSON "debug_mode"
  let lf := jsonIndex c.JSON "log_format"
  let addr := jsonIndex c.JSON "address"
  let tlscf := jsonIndex c.JSON "tls_cert_file"
  let tlskf := jsonIndex c.JSON "tls_key_file"
  let rt := jsonIndex c.JSON "read_timeout"
  let wt := jsonIndex c.JSON "write_timeout"
  let tr := jsonIndex c.JSON "templates_root"
  (match dm with
    | none => some c
    | some v => (assertBool v).map (fun b => { c with DebugMode := b })).bind fun c =>
  (match lf with
    | none => some c
    | some v => (assertString v).map (fun s => { c with LogFormat := s })).bind fun c =>
  (match addr with
    | none => some c
    | some v => (assertString v).map (fun s => { c with Address := s })).bind fun c =>
  (match tlscf with
    | none => some c
    | some v => (assertString v).map (fun s => { c with TLSCertFile := s })).bind fun c =>
  (match tlskf with
    | none => some c
    | some v => (assertString v).map (fun s => { c with TLSKeyFile := s })).bind fun c =>
  (match rt with
    | none => some c
    | some v => (assertFloat v).map (fun q => { c with ReadTimeout := secondsToDuration q })).bind fun c =>
  (match wt with
    | none => some c
    | some v => (assertFloat v).map (fun q => { c with WriteTimeout := secondsToDuration q })).bind fun c =>
  (match tr with
    | none => some c
    | some v => (assertString v).map (fun s => { c with TemplatesRoot := s }))

/-- The function `NewConfig`. The first argument is the package variable
`configJSON` as `init` left it: `none` when there is no config file, else the
decoded, non-empty top-level object. The result is `none` when `NewConfig`
panics. -/
def NewConfig (configJSON : Option (List (String × JSON))) (appName : String) : Option Config :=
  let c := defaultConfig
  match configJSON with
  | none => some { c with AppName := appName }
  | some m =>
    if m.length = 1 then
      match m with
      | [(k, v)] =>
        match assertObject v with
        | none => none
        | some o => applyOptions { c with AppName := k, JSON := some o }
      | _ => none
    else
      match jsonIndex (some m) appName with
      | none => none
      | some v =>
        match assertObject v with
        | none => none
        | some o => applyOptions { c with AppName := appName, JSON := some o }

/-! ## coffer.go: the asset coffer -/

/-- A `[]byte`: a list of byte values. -/
abbrev Bytes := List Nat

/-- The bytes of an ASCII string. -/
def asciiBytes (s : String) : Bytes :=
  s.toList.map Char.toNat

/-- A Go `error` value, with the answer `os.IsNotExist` gives for it. -/
structure Error where
  msg : String
  notExist : Bool
  deriving DecidableEq, Repr

/-- The part of an `os.FileInfo` that `Init` reads: the modification time. -/
structure FileInfo where
  modTime : Int
  deriving DecidableEq, Repr

/-- The struct `Asset`. The `bytes.Reader` is represented by the content it
reads from. -/
structure Asset where
  name : String
  modTime : Int
  content : Bytes
  deriving DecidableEq, Repr

/-- The function `NewAsset`. -/
def NewAsset (name : String) (modTime : Int) (content : Bytes) : Asset :=
  { name := name, modTime := modTime, content := content }

/-- The method `Asset.Name`. -/
def Asset.Name (a : Asset) : String :=
  a.name

/-- The method `Asset.ModTime`. -/
def Asset.ModTime (a : Asset) : Int :=
  a.modTime

/-- Modelled from the spec: the configuration options the coffer consumes
(`enabled`, `assetRoot`, `assetExtensions`, `minificationEnabled`), under the
field names `coffer.Init` reads from `c.air.Config`; the declaration of these
fields is not among the sources. -/
structure AssetConfig where
  CofferEnabled : Bool
  AssetRoot : String
  AssetExts : List String
  AssetMinified : Bool

/-- The part of `Air` that the coffer uses, taken from the uses `c.air.Config`
and `c.air.Minifier` (the declaration of `Air` is not among the sources): the
configuration and the minifier. `Minifier mediatype input` is the call
`Minify(mediatype, buf, bytes.NewReader(input))` on an empty `buf`: the bytes
written to `buf`, or the error returned. -/
structure Air where
  Config : AssetConfig
  Minifier : String → Bytes → Except Error Bytes

/-- A Go `map[string]*Asset`: a missing key reads as nil (`none`). -/
abbrev AssetMap := String → Option Asset

/-- The expression `make(map[string]*Asset)`. -/
def emptyAssets : AssetMap :=
  fun _ => none

/-- The assignment `assets[filename] = a`. -/
def AssetMap.set (assets : AssetMap) (filename : String) (a : Asset) : AssetMap :=
  fun k => if k = filename then some a else assets k

/-- An `fsnotify.Watcher`, as far as `Init` drives it: the paths added to it. -/
structure Watcher where
  paths : List String
  deriving DecidableEq, Repr

/-- The struct `coffer`. `watcher` is `none` for the nil pointer. `watchLoops`
is not a field of the Go struct: it counts the `go c.watchAssets()`
statements executed on this coffer. -/
structure coffer where
  air : Air
  assets : AssetMap
  watcher : Option Watcher
  watchLoops : Nat

/-- The function `newCoffer`. -/
def newCoffer (a : Air) : coffer :=
  { air := a, assets := emptyAssets, watcher := none, watchLoops := 0 }

/-- The method `coffer.Asset`. -/
def coffer.Asset (c : coffer) (name : String) : Option Asset :=
  c.assets name

/-- The answers of the environment during one `Init` call: `os.Stat`,
`filepath.Abs`, the repository's `walkDirs` (its source is not among the
files), `filepath.Join`, `filepath.Glob`, `ioutil.ReadFile`,
`fsnotify.NewWatcher` (`none` when it succeeds; on failure it returns a nil
watcher) and `Watcher.Add` (`none` when it succeeds). -/
structure OS where
  stat : String → Except Error FileInfo
  abs : String → Except Error String
  walkDirs : String → Except Error (List String)
  join : String → String → String
  glob : String → Except Error (List String)
  readFile : String → Except Error Bytes
  newWatcher : Option Error
  watcherAdd : String → Option Error

/-- The scan of `filepath.Ext` from the end of the path, on the reversed
characters: stop with no extension at a separator, stop at the first dot. -/
def extScan : List Char → List Char → List Char
  | [], _ => []
  | ch :: rest, acc =>
    if ch = '/' then []
    else if ch = '.' then '.' :: acc
    else extScan rest (ch :: acc)

/-- The function `filepath.Ext`: the suffix beginning at the final dot in the
final element of the path, empty if there is no dot. -/
def Ext (path : String) : String :=
  String.mk (extScan path.toList.reverse [])

/-- A call of the minifier made by `Init`. `file` is not an argument of
`Minify`: it records which file `Init` was loading when it made the call. -/
structure MinifyCall where
  file : String
  mediatype : String
  input : Bytes
  deriving DecidableEq, Repr

/-- The condition `err != nil && os.IsNotExist(err)` on `os.Stat(root)`. -/
def rootNotExist (os : OS) (root : String) : Bool :=
  match os.stat root with
  | .error e => e.notExist
  | .ok _ => false

/-- The inner loop of the scan: for each extension `ae`, the matches of
`filepath.Glob(filepath.Join(dir, "*"+ae))` are appended to `filenames`. -/
def globExts (os : OS) (dir : String) : List String → List String → Except Error (List String)
  | [], filenames => .ok filenames
  | ae :: aes, filenames =>
    match os.glob (os.join dir ("*" ++ ae)) with
    | .error e => .error e
    | .ok fns => globExts os dir aes (filenames ++ fns)

/-- The outer loop of the scan, over the walked directories. -/
def globDirs (os : OS) (exts : List String) : List String → List String → Except Error (List String)
  | [], filenames => .ok filenames
  | dir :: dirs, filenames =>
    match globExts os dir exts filenames with
    | .error e => .error e
    | .ok filenames2 => globDirs os exts dirs filenames2

/-- Lines 87 to 106 of `Init`: the absolute root, the walked directories and
the scanned file names. -/
def scan (cfg : AssetConfig) (os : OS) : Except Error (List String × List String) :=
  match os.abs cfg.AssetRoot with
  | .error e => .error e
  | .ok ar =>
    match os.walkDirs ar with
    | .error e => .error e
    | .ok dirs =>
      match globDirs os cfg.AssetExts dirs [] with
      | .error e => .error e
      | .ok filenames => .ok (dirs, filenames)

/-- The switch on `filepath.Ext(filename)` with a fresh `buf`: the calls made
and either the error or the bytes of `buf` afterwards. No case matches another
extension: no call is made, `err` stays nil and `buf` stays empty. -/
def minifySwitch (m : String → Bytes → Except Error Bytes) (filename : String) (b : Bytes) :
    List MinifyCall × Except Error Bytes :=
  let ext := Ext filename
  if ext = ".html" then ([⟨filename, "text/html", b⟩], m "text/html" b)
  else if ext = ".css" then ([⟨filename, "text/css", b⟩], m "text/css" b)
  else if ext = ".js" then ([⟨filename, "text/javascript", b⟩], m "text/javascript" b)
  else if ext = ".json" then ([⟨filename, "application/json", b⟩], m "application/json" b)
  else if ext = ".xml" then ([⟨filename, "text/xml", b⟩], m "text/xml" b)
  else if ext = ".svg" then ([⟨filename, "image/svg+xml", b⟩], m "image/svg+xml" b)
  else ([], .ok [])

/-- The body of the loading loop for one file name (lines 111 to 146): the
minifier calls made and either the error returned or the asset stored. -/
def loadFile (air : Air) (os : OS) (filename : String) : List MinifyCall × Except Error Asset :=
  match os.stat filename with
  | .error e => ([], .error e)
  | .ok fi =>
    match os.readFile filename with
    | .error e => ([], .error e)
    | .ok b =>
      if air.Config.AssetMinified then
        match minifySwitch air.Minifier filename b with
        | (calls, .error e) => (calls, .error e)
        | (calls, .ok out) => (calls, .ok (NewAsset filename fi.modTime out))
      else ([], .ok (NewAsset filename fi.modTime b))

/-- The loading loop over the scanned file names, filling `assets`. -/
def loadFiles (air : Air) (os : OS) : List String → AssetMap → List MinifyCall × Except Error AssetMap
  | [], assets => ([], .ok assets)
  | filename :: rest, assets =>
    match loadFile air os filename with
    | (calls, .error e) => (calls, .error e)
    | (calls, .ok a) =>
      let r := loadFiles air os rest (assets.set filename a)
      (calls ++ r.1, r.2)

/-- The loop `for _, dir := range dirs` over `c.watcher.Add(dir)`: the watcher
afterwards and the first error, if any. -/
def addDirs (os : OS) : List String → Watcher → Watcher × Option Error
  | [], w => (w, none)
  | dir :: dirs, w =>
    match os.watcherAdd dir with
    | some e => (w, some e)
    | none => addDirs os dirs { paths := w.paths ++ [dir] }

/-- What one `Init` call leaves: the coffer afterwards, the error returned
(`none` for nil) and the minifier calls it made, in order. -/
structure InitResult where
  c : coffer
  err : Option Error
  calls : List MinifyCall

/-- Lines 149 to 165 of `Init`: the store is assigned, then the watcher is set
up if there is none. -/
def publish (c : coffer) (os : OS) (dirs : List String) (assets : AssetMap)
    (calls : List MinifyCall) : InitResult :=
  let c1 := { c with assets := assets }
  match c1.watcher with
  | some _ => { c := c1, err := none, calls := calls }
  | none =>
    match os.newWatcher with
    | some e => { c := { c1 with watcher := none }, err := some e, calls := calls }
    | none =>
      match addDirs os dirs { paths := [] } with
      | (w, some e) => { c := { c1 with watcher := some w }, err := some e, calls := calls }
      | (w, none) =>
        { c := { c1 with watcher := some w, watchLoops := c1.watchLoops + 1 },
          err := none, calls := calls }

/-- The method `coffer.Init`. -/
def coffer.Init (c : coffer) (os : OS) : InitResult :=
  let cfg := c.air.Config
  if cfg.CofferEnabled = false then { c := c, err := none, calls := [] }
  else if rootNotExist os cfg.AssetRoot then { c := c, err := none, calls := [] }
  else
    match scan cfg os with
    | .error e => { c := c, err := some e, calls := [] }
    | .ok (dirs, filenames) =>
      match loadFiles c.air os filenames emptyAssets with
      | (calls, .error e) => { c := c, err := some e, calls := calls }
      | (calls, .ok assets) => publish c os dirs assets calls

/-- A sequence of `Init` calls on one coffer, each against its own
environment. -/
def runInits (c : coffer) : List OS → coffer
  | [] => c
  | os :: rest => runInits (c.Init os).c rest

/-- The media type that the switch of `Init` passes to the minifier for each
extension, `none` for an extension that no case matches. -/
def mediaType (ext : String) : Option String :=
  if ext = ".html" then some "text/html"
  else if ext = ".css" then some "text/css"
  else if ext = ".js" then some "text/javascript"
  else if ext = ".json" then some "application/json"
  else if ext = ".xml" then some "text/xml"
  else if ext = ".svg" then some "image/svg+xml"
  else none

/-- The load of `filename` fails with `e`: `os.Stat` fails with it, or
`ioutil.ReadFile` does, or minification is enabled, the extension has a media
type and the minifier returns `e` on the bytes read. -/
def loadFails (a : Air) (os : OS) (filename : String) (e : Error) : Prop :=
  os.stat filename = .error e ∨
  (∃ fi, os.stat filename = .ok fi ∧ os.readFile filename = .error e) ∨
  (∃ fi b mt, os.stat filename = .ok fi ∧ os.readFile filename = .ok b ∧
    a.Config.AssetMinified = true ∧ mediaType (Ext filename) = some mt ∧
    a.Minifier mt b = .error e)

/-- The minifier calls of a run that were made while loading `filename`. -/
def callsFor (calls : List MinifyCall) (filename : String) : List MinifyCall :=
  calls.filter (fun k => decide (k.file = filename))

/-! ## Concrete environments -/

/-- The error of a system call on a path that does not exist. -/
def errNotExist : Error :=
  { msg := "no such file or directory", notExist := true }

/-- The error of a system call refused by the system. -/
def errDenied : Error :=
  { msg := "permission denied", notExist := false }

/-- An environment given by tables: the absolute form of each path, the
directories walked from each root, the modification time of each existing
path, the matches of each glob pattern (none when the pattern is not listed)
and the content of each readable file. `filepath.Join` is the concatenation
with a separator, which it is for a clean directory and a pattern without
separators. -/
def tableOS (absTable : List (String × String)) (walks : List (String × List String))
    (stats : List (String × Int)) (globs : List (String × List String))
    (contents : List (String × Bytes)) (newWatcher : Option Error)
    (addErrs : List (String × Error)) : OS where
  stat := fun p =>
    match stats.lookup p with
    | some t => .ok { modTime := t }
    | none => .error errNotExist
  abs := fun p =>
    match absTable.lookup p with
    | some q => .ok q
    | none => .error errDenied
  walkDirs := fun root =>
    match walks.lookup root with
    | some dirs => .ok dirs
    | none => .error errNotExist
  join := fun dir pat => dir ++ "/" ++ pat
  glob := fun pat =>
    match globs.lookup pat with
    | some fns => .ok fns
    | none => .ok []
  readFile := fun p =>
    match contents.lookup p with
    | some b => .ok b
    | none => .error errDenied
  newWatcher := newWatcher
  watcherAdd := fun dir => addErrs.lookup dir

/-- A minifier that returns its input for every media type. -/
def idMinifier : String → Bytes → Except Error Bytes :=
  fun _ b => .ok b

/-- The `Air` of the example scenario: root `assets`, extensions `.css`,
minification on, a transformer that returns its input. -/
def siteAir : Air :=
  { Config := { CofferEnabled := true, AssetRoot := "assets", AssetExts := [".css"],
                AssetMinified := true },
    Minifier := idMinifier }

/-- The same application with minification off. -/
def plainAir : Air :=
  { Config := { CofferEnabled := true, AssetRoot := "assets", AssetExts := [".css"],
                AssetMinified := false },
    Minifier := idMinifier }

/-- The content of `site.css` in the example scenario. -/
def siteBytes : Bytes :=
  asciiBytes "a\x7bcolor:red\x7d"

/-- The environment of the example scenario, run from the working directory
`/srv`: the directory `/srv/assets` holds the one file `site.css`. The
watcher failures are parameters. -/
def siteOSWith (newWatcher : Option Error) (addErrs : List (String × Error)) : OS :=
  tableOS [("assets", "/srv/assets")] [("/srv/assets", ["/srv/assets"])]
    [("assets", 1700000000), ("/srv/assets", 1700000000), ("/srv/assets/site.css", 1700000123)]
    [("/srv/assets/*.css", ["/srv/assets/site.css"])]
    [("/srv/assets/site.css", siteBytes)] newWatcher addErrs

/-- The example scenario with a working watcher. -/
def siteOS : OS :=
  siteOSWith none []

/-- The example scenario where `fsnotify.NewWatcher` fails. -/
def siteOSNoWatcher : OS :=
  siteOSWith (some errDenied) []

/-- The example scenario where `Watcher.Add` fails on the root directory. -/
def siteOSAddFails : OS :=
  siteOSWith none [("/srv/assets", errDenied)]

/-- The example scenario after `site.css` became unreadable and a second,
readable file `base.css` appeared before it in the scan. -/
def siteOSUnreadable : OS :=
  tableOS [("assets", "/srv/assets")] [("/srv/assets", ["/srv/assets"])]
    [("assets", 1700000000), ("/srv/assets", 1700000000), ("/srv/assets/base.css", 1700000200),
     ("/srv/assets/site.css", 1700000123)]
    [("/srv/assets/*.css", ["/srv/assets/base.css", "/srv/assets/site.css"])]
    [("/srv/assets/base.css", asciiBytes "b\x7b\x7d")] none []

/-- The example scenario after the directory `/srv/assets` was removed. -/
def siteOSRootGone : OS :=
  tableOS [("assets", "/srv/assets")] [] [] [] [] none []

/-- An application that caches `.png` files with minification on. -/
def pngAir : Air :=
  { Config := { CofferEnabled := true, AssetRoot := "assets", AssetExts := [".png"],
                AssetMinified := true },
    Minifier := idMinifier }

/-- The content of `logo.png`. -/
def pngBytes : Bytes :=
  [137, 80, 78, 71]

/-- An environment where `/srv/assets` holds the one file `logo.png`. -/
def pngOS : OS :=
  tableOS [("assets", "/srv/assets")] [("/srv/assets", ["/srv/assets"])]
    [("assets", 1700000000), ("/srv/assets", 1700000000), ("/srv/assets/logo.png", 1700000300)]
    [("/srv/assets/*.png", ["/srv/assets/logo.png"])]
    [("/srv/assets/logo.png", pngBytes)] none []

/-- An application whose extension filters `.js` and `.min.js` overlap. -/
def jsAir : Air :=
  { Config := { CofferEnabled := true, AssetRoot := "assets", AssetExts := [".js", ".min.js"],
                AssetMinified := true },
    Minifier := idMinifier }

/-- The content of `app.min.js`. -/
def jsBytes : Bytes :=
  asciiBytes "f()"

/-- An environment where `/srv/assets` holds the one file `app.min.js`, which
both `*.js` and `*.min.js` match. -/
def jsOS : OS :=
  tableOS [("assets", "/srv/assets")] [("/srv/assets", ["/srv/assets"])]
    [("assets", 1700000000), ("/srv/assets", 1700000000), ("/srv/assets/app.min.js", 1700000400)]
    [("/srv/assets/*.js", ["/srv/assets/app.min.js"]),
     ("/srv/assets/*.min.js", ["/srv/assets/app.min.js"])]
    [("/srv/assets/app.min.js", jsBytes)] none []

/-- A config file with the two applications `blog` and `shop`. -/
def twoApps : List (String × JSON) :=
  [("blog", .object [("address", .string "localhost:9000")]), ("shop", .object [])]

/-- A config file with the one application `blog`. -/
def oneApp : List (String × JSON) :=
  [("blog", .object [("address", .string "localhost:9000")])]

/-- The coffer of the example scenario after a first, successful `Init`. -/
def siteCoffer : coffer :=
  ((newCoffer siteAir).Init siteOS).c

/-! ## Lemmas on the loading loop -/

/-- On an extension with a media type the switch makes one call, with that
media type and the bytes read. -/
theorem minifySwitch_mapped (m : String → Bytes → Except Error Bytes) (f : String) (b : Bytes)
    (mt : String) (h : mediaType (Ext f) = some mt) :
    minifySwitch m f b = ([⟨f, mt, b⟩], m mt b) := by
  unfold mediaType at h
  unfold minifySwitch
  split_ifs at h ⊢ <;> simp_all

/-- On any other extension the switch makes no call and leaves the buffer
empty. -/
theorem minifySwitch_unmapped (m : String → Bytes → Except Error Bytes) (f : String) (b : Bytes)
    (h : mediaType (Ext f) = none) :
    minifySwitch m f b = ([], .ok []) := by
  unfold mediaType at h
  unfold minifySwitch
  split_ifs at h ⊢
  simp_all

/-- Every call made while loading a file is recorded under that file. -/
theorem loadFile_calls_file (a : Air) (os : OS) (f : String) :
    ∀ k ∈ (loadFile a os f).1, k.file = f := by
  intro k hk
  unfold loadFile at hk
  cases hs : os.stat f with
  | error e => simp [hs] at hk
  | ok fi =>
    cases hr : os.readFile f with
    | error e => simp [hs, hr] at hk
    | ok b =>
      cases hm : a.Config.AssetMinified with
      | false => simp [hs, hr, hm] at hk
      | true =>
        cases hmt : mediaType (Ext f) with
        | none =>
          simp [hs, hr, hm, minifySwitch_unmapped _ _ _ hmt] at hk
        | some mt =>
          simp only [hs, hr, hm, minifySwitch_mapped _ _ _ _ hmt] at hk
          cases hx : a.Minifier mt b with
          | error e =>
            simp [hx] at hk
            simp [hk]
          | ok out =>
            simp [hx] at hk
            simp [hk]

/-- The load of a file returns an error exactly when its stat, its read or
its minification fails with that error. -/
theorem loadFile_error_iff (a : Air) (os : OS) (f : String) (e : Error) :
    (loadFile a os f).2 = .error e ↔ loadFails a os f e := by
  unfold loadFile loadFails
  cases hs : os.stat f with
  | error e1 => simp
  | ok fi =>
    cases hr : os.readFile f with
    | error e1 => simp
    | ok b =>
      cases hm : a.Config.AssetMinified with
      | false => simp
      | true =>
        cases hmt : mediaType (Ext f) with
        | none => simp [minifySwitch_unmapped _ _ _ hmt]
        | some mt =>
          simp only [minifySwitch_mapped _ _ _ _ hmt]
          cases hx : a.Minifier mt b <;> simp [hx]

/-- Without minification a loaded asset holds the bytes read, under the file
name and the modification time of the stat. -/
theorem loadFile_plain_ok (a : Air) (os : OS) (f : String) (x : Asset)
    (hm : a.Config.AssetMinified = false) (h : (loadFile a os f).2 = .ok x) :
    ∃ fi b, os.stat f = .ok fi ∧ os.readFile f = .ok b ∧ x = ⟨f, fi.modTime, b⟩ := by
  unfold loadFile at h
  cases hs : os.stat f with
  | error e => simp [hs] at h
  | ok fi =>
    cases hr : os.readFile f with
    | error e => simp [hs, hr] at h
    | ok b =>
      simp [hs, hr, hm, NewAsset] at h
      exact ⟨fi, b, rfl, rfl, h.symm⟩

/-- With minification, a loaded asset of a file whose extension has a media
type holds the output of the minifier, and the load made exactly the one call
that produced it. -/
theorem loadFile_minified_ok (a : Air) (os : OS) (f mt : String) (x : Asset)
    (hm : a.Config.AssetMinified = true) (hmt : mediaType (Ext f) = some mt)
    (h : (loadFile a os f).2 = .ok x) :
    ∃ fi b out, os.stat f = .ok fi ∧ os.readFile f = .ok b ∧ a.Minifier mt b = .ok out ∧
      x = ⟨f, fi.modTime, out⟩ ∧ (loadFile a os f).1 = [⟨f, mt, b⟩] := by
  unfold loadFile at h ⊢
  cases hs : os.stat f with
  | error e => simp [hs] at h
  | ok fi =>
    cases hr : os.readFile f with
    | error e => simp [hs, hr] at h
    | ok b =>
      simp only [hs, hr, hm, minifySwitch_mapped _ _ _ _ hmt] at h ⊢
      cases hx : a.Minifier mt b with
      | error e => simp [hx] at h
      | ok out =>
        simp [hx, NewAsset] at h
        exact ⟨fi, b, out, rfl, rfl, hx, h.symm, by simp⟩

/-- With minification, a loaded asset of a file whose extension has no media
type holds no bytes, and the load made no call. -/
theorem loadFile_unmapped_ok (a : Air) (os : OS) (f : String) (x : Asset)
    (hm : a.Config.AssetMinified = true) (hmt : mediaType (Ext f) = none)
    (h : (loadFile a os f).2 = .ok x) :
    x.content = [] ∧ (loadFile a os f).1 = [] := by
  unfold loadFile at h ⊢
  cases hs : os.stat f with
  | error e => simp [hs] at h
  | ok fi =>
    cases hr : os.readFile f with
    | error e => simp [hs, hr] at h
    | ok b =>
      simp [hs, hr, hm, minifySwitch_unmapped _ _ _ hmt, NewAsset] at h ⊢
      simp [← h]

/-- One step of the loading loop on a file that loads. -/
theorem loadFiles_cons_ok (a : Air) (os : OS) (f : String) (rest : List String) (m : AssetMap)
    (x : Asset) (h : (loadFile a os f).2 = .ok x) :
    loadFiles a os (f :: rest) m =
      ((loadFile a os f).1 ++ (loadFiles a os rest (m.set f x)).1,
        (loadFiles a os rest (m.set f x)).2) := by
  rcases hl : loadFile a os f with ⟨calls, r⟩
  rw [hl] at h
  simp only at h
  subst h
  simp [loadFiles, hl]

/-- One step of the loading loop on a file that fails. -/
theorem loadFiles_cons_error (a : Air) (os : OS) (f : String) (rest : List String) (m : AssetMap)
    (e : Error) (h : (loadFile a os f).2 = .error e) :
    loadFiles a os (f :: rest) m = ((loadFile a os f).1, .error e) := by
  rcases hl : loadFile a os f with ⟨calls, r⟩
  rw [hl] at h
  simp only at h
  subst h
  simp [loadFiles, hl]

/-- The loading loop fails exactly at the first file whose load fails, with
the error of that load. -/
theorem loadFiles_error (a : Air) (os : OS) (e : Error) :
    ∀ (fs : List String) (m : AssetMap), (loadFiles a os fs m).2 = .error e →
      ∃ pre g post, fs = pre ++ g :: post ∧
        (∀ h ∈ pre, ∃ x, (loadFile a os h).2 = .ok x) ∧ (loadFile a os g).2 = .error e := by
  intro fs
  induction fs with
  | nil => intro m h; simp [loadFiles] at h
  | cons f rest ih =>
    intro m h
    cases hf : (loadFile a os f).2 with
    | error e1 =>
      rw [loadFiles_cons_error a os f rest m e1 hf] at h
      simp only [Except.error.injEq] at h
      subst h
      exact ⟨[], f, rest, rfl, by simp, hf⟩
    | ok x =>
      rw [loadFiles_cons_ok a os f rest m x hf] at h
      obtain ⟨pre, g, post, hfs, hpre, hg⟩ := ih _ h
      refine ⟨f :: pre, g, post, by simp [hfs], ?_, hg⟩
      intro h1 hh
      rcases List.mem_cons.mp hh with rfl | hh
      · exact ⟨x, hf⟩
      · exact hpre h1 hh

/-- The loading loop fails as soon as one of its files fails to load. -/
theorem loadFiles_fails_of_mem (a : Air) (os : OS) (f : String) (e0 : Error)
    (hf : (loadFile a os f).2 = .error e0) :
    ∀ (fs : List String) (m : AssetMap), f ∈ fs → ∃ e, (loadFiles a os fs m).2 = .error e := by
  intro fs
  induction fs with
  | nil => intro m h; simp at h
  | cons g rest ih =>
    intro m hmem
    cases hg : (loadFile a os g).2 with
    | error e1 =>
      exact ⟨e1, by rw [loadFiles_cons_error a os g rest m e1 hg]⟩
    | ok x =>
      rw [loadFiles_cons_ok a os g rest m x hg]
      rcases List.mem_cons.mp hmem with rfl | hmem
      · rw [hf] at hg; cases hg
      · exact ih _ hmem

/-- After a loading loop that succeeds, every file of the list is mapped to
the asset its load produced, and every other key is as it was. -/
theorem loadFiles_ok (a : Air) (os : OS) :
    ∀ (fs : List String) (m m2 : AssetMap), (loadFiles a os fs m).2 = .ok m2 →
      (∀ p ∈ fs, ∃ x, (loadFile a os p).2 = .ok x ∧ m2 p = some x) ∧
      (∀ q, q ∉ fs → m2 q = m q) := by
  intro fs
  induction fs with
  | nil =>
    intro m m2 h
    simp [loadFiles] at h
    subst h
    simp
  | cons f rest ih =>
    intro m m2 h
    cases hf : (loadFile a os f).2 with
    | error e1 =>
      rw [loadFiles_cons_error a os f rest m e1 hf] at h
      cases h
    | ok x =>
      rw [loadFiles_cons_ok a os f rest m x hf] at h
      obtain ⟨h1, h2⟩ := ih _ _ h
      constructor
      · intro p hp
        by_cases hpr : p ∈ rest
        · exact h1 p hpr
        · rcases List.mem_cons.mp hp with rfl | hp
          · refine ⟨x, hf, ?_⟩
            rw [h2 p hpr]
            simp [AssetMap.set]
          · exact absurd hp hpr
      · intro q hq
        have hq1 : q ≠ f := fun hqf => hq (by simp [hqf])
        have hq2 : q ∉ rest := fun hqr => hq (by simp [hqr])
        rw [h2 q hq2]
        simp [AssetMap.set, hq1]

/-- After a loading loop that succeeds, the calls recorded under a file are the
calls of its load, once for each time the file stands in the list. -/
theorem loadFiles_calls (a : Air) (os : OS) (p : String) :
    ∀ (fs : List String) (m m2 : AssetMap), (loadFiles a os fs m).2 = .ok m2 →
      callsFor (loadFiles a os fs m).1 p =
        (List.replicate (fs.count p) (loadFile a os p).1).flatten := by
  intro fs
  induction fs with
  | nil => intro m m2 _; simp [loadFiles, callsFor]
  | cons f rest ih =>
    intro m m2 h
    cases hf : (loadFile a os f).2 with
    | error e1 =>
      rw [loadFiles_cons_error a os f rest m e1 hf] at h
      cases h
    | ok x =>
      rw [loadFiles_cons_ok a os f rest m x hf] at h ⊢
      have hrest := ih _ _ h
      simp only [callsFor] at hrest ⊢
      rw [List.filter_append, hrest]
      by_cases hfp : f = p
      · subst hfp
        have hall : List.filter (fun k => decide (k.file = f)) (loadFile a os f).1
            = (loadFile a os f).1 := by
          apply List.filter_eq_self.mpr
          intro k hk
          simp [loadFile_calls_file a os f k hk]
        rw [hall]
        simp [List.count_cons_self, List.replicate_succ]
      · have hnone : List.filter (fun k => decide (k.file = p)) (loadFile a os f).1 = [] := by
          apply List.filter_eq_nil_iff.mpr
          intro k hk
          simp [loadFile_calls_file a os f k hk, hfp]
        rw [hnone]
        have hne : (f == p) = false := by simp [hfp]
        simp [List.count_cons, hne]

/-! ## Lemmas on `Init` -/

/-- The assignment of the store is the first step of the last part of `Init`,
whatever the watcher does afterwards. -/
theorem publish_assets (c : coffer) (os : OS) (dirs : List String) (m : AssetMap)
    (calls : List MinifyCall) : (publish c os dirs m calls).c.assets = m := by
  unfold publish
  cases hw : c.watcher with
  | some w => simp [hw]
  | none =>
    cases hn : os.newWatcher with
    | some e => simp [hw, hn]
    | none =>
      rcases hd : addDirs os dirs { paths := [] } with ⟨w, _ | e⟩ <;> simp [hw, hn, hd]

/-- The last part of `Init` makes no minifier call. -/
theorem publish_calls (c : coffer) (os : OS) (dirs : List String) (m : AssetMap)
    (calls : List MinifyCall) : (publish c os dirs m calls).calls = calls := by
  unfold publish
  cases hw : c.watcher with
  | some w => simp [hw]
  | none =>
    cases hn : os.newWatcher with
    | some e => simp [hw, hn]
    | none =>
      rcases hd : addDirs os dirs { paths := [] } with ⟨w, _ | e⟩ <;> simp [hw, hn, hd]

/-- With caching enabled, a root that exists and a scan that succeeds, `Init`
is the loading loop followed, when it succeeds, by the last part. -/
theorem Init_scanned (c : coffer) (os : OS) (dirs files : List String)
    (hen : c.air.Config.CofferEnabled = true)
    (hroot : rootNotExist os c.air.Config.AssetRoot = false)
    (hscan : scan c.air.Config os = .ok (dirs, files)) :
    c.Init os =
      match loadFiles c.air os files emptyAssets with
      | (calls, .error e) => { c := c, err := some e, calls := calls }
      | (calls, .ok assets) => publish c os dirs assets calls := by
  simp [coffer.Init, hen, hroot, hscan]

/-- When the loading loop fails, `Init` returns its error and leaves the coffer
as it was. -/
theorem Init_load_error (c : coffer) (os : OS) (dirs files : List String) (e : Error)
    (hen : c.air.Config.CofferEnabled = true)
    (hroot : rootNotExist os c.air.Config.AssetRoot = false)
    (hscan : scan c.air.Config os = .ok (dirs, files))
    (hload : (loadFiles c.air os files emptyAssets).2 = .error e) :
    (c.Init os).err = some e ∧ (c.Init os).c = c := by
  rw [Init_scanned c os dirs files hen hroot hscan]
  rcases hl : loadFiles c.air os files emptyAssets with ⟨calls, r⟩
  rw [hl] at hload
  simp only at hload
  subst hload
  simp

/-- When the loading loop succeeds, `Init` assigns its mapping to the store and
has made its calls. -/
theorem Init_load_ok (c : coffer) (os : OS) (dirs files : List String) (m : AssetMap)
    (hen : c.air.Config.CofferEnabled = true)
    (hroot : rootNotExist os c.air.Config.AssetRoot = false)
    (hscan : scan c.air.Config os = .ok (dirs, files))
    (hload : (loadFiles c.air os files emptyAssets).2 = .ok m) :
    (c.Init os).c.assets = m ∧
      (c.Init os).calls = (loadFiles c.air os files emptyAssets).1 := by
  rw [Init_scanned c os dirs files hen hroot hscan]
  rcases hl : loadFiles c.air os files emptyAssets with ⟨calls, r⟩
  rw [hl] at hload
  simp only at hload
  subst hload
  simp [publish_assets, publish_calls]

/-- With caching enabled and a root that exists, an `Init` that returns no
error has scanned and loaded with success. -/
theorem Init_ok_built (c : coffer) (os : OS)
    (hen : c.air.Config.CofferEnabled = true)
    (hroot : rootNotExist os c.air.Config.AssetRoot = false)
    (herr : (c.Init os).err = none) :
    ∃ dirs files m, scan c.air.Config os = .ok (dirs, files) ∧
      (loadFiles c.air os files emptyAssets).2 = .ok m := by
  cases hscan : scan c.air.Config os with
  | error e => simp [coffer.Init, hen, hroot, hscan] at herr
  | ok df =>
    obtain ⟨dirs, files⟩ := df
    cases hload : (loadFiles c.air os files emptyAssets).2 with
    | error e =>
      rw [(Init_load_error c os dirs files e hen hroot hscan hload).1] at herr
      cases herr
    | ok m => exact ⟨dirs, files, m, rfl, hload⟩

/-- The files the inner loop of the scan appends for one directory are the
matches of the glob patterns of that directory. -/
theorem globExts_mem (os : OS) (dir : String) :
    ∀ (exts acc files : List String), globExts os dir exts acc = .ok files →
      ∀ q, q ∈ files ↔ q ∈ acc ∨
        ∃ ae ∈ exts, ∃ fns, os.glob (os.join dir ("*" ++ ae)) = .ok fns ∧ q ∈ fns := by
  intro exts
  induction exts with
  | nil =>
    intro acc files h q
    simp [globExts] at h
    subst h
    simp
  | cons ae aes ih =>
    intro acc files h q
    unfold globExts at h
    cases hg : os.glob (os.join dir ("*" ++ ae)) with
    | error e => simp [hg] at h
    | ok fns =>
      simp only [hg] at h
      rw [ih _ _ h q]
      constructor
      · rintro (hq | ⟨ae2, hae2, fns2, hg2, hq⟩)
        · rcases List.mem_append.mp hq with hq | hq
          · exact Or.inl hq
          · exact Or.inr ⟨ae, by simp, fns, hg, hq⟩
        · exact Or.inr ⟨ae2, by simp [hae2], fns2, hg2, hq⟩
      · rintro (hq | ⟨ae2, hae2, fns2, hg2, hq⟩)
        · exact Or.inl (List.mem_append.mpr (Or.inl hq))
        · rcases List.mem_cons.mp hae2 with rfl | hae2
          · rw [hg] at hg2
            cases hg2
            exact Or.inl (List.mem_append.mpr (Or.inr hq))
          · exact Or.inr ⟨ae2, hae2, fns2, hg2, hq⟩

/-- The files the scan returns are the matches of the glob patterns of the
walked directories. -/
theorem globDirs_mem (os : OS) (exts : List String) :
    ∀ (dirs acc files : List String), globDirs os exts dirs acc = .ok files →
      ∀ q, q ∈ files ↔ q ∈ acc ∨
        ∃ d ∈ dirs, ∃ ae ∈ exts, ∃ fns, os.glob (os.join d ("*" ++ ae)) = .ok fns ∧ q ∈ fns := by
  intro dirs
  induction dirs with
  | nil =>
    intro acc files h q
    simp [globDirs] at h
    subst h
    simp
  | cons d ds ih =>
    intro acc files h q
    unfold globDirs at h
    cases hg : globExts os d exts acc with
    | error e => simp [hg] at h
    | ok files2 =>
      simp only [hg] at h
      rw [ih _ _ h q, globExts_mem os d exts acc files2 hg q]
      constructor
      · rintro ((hq | ⟨ae, hae, fns, hgl, hq⟩) | ⟨d2, hd2, ae, hae, fns, hgl, hq⟩)
        · exact Or.inl hq
        · exact Or.inr ⟨d, by simp, ae, hae, fns, hgl, hq⟩
        · exact Or.inr ⟨d2, by simp [hd2], ae, hae, fns, hgl, hq⟩
      · rintro (hq | ⟨d2, hd2, ae, hae, fns, hgl, hq⟩)
        · exact Or.inl (Or.inl hq)
        · rcases List.mem_cons.mp hd2 with rfl | hd2
          · exact Or.inl (Or.inr ⟨ae, hae, fns, hgl, hq⟩)
          · exact Or.inr ⟨d2, hd2, ae, hae, fns, hgl, hq⟩

/-- When the inner loop of the scan succeeds, every glob of the directory has
succeeded. -/
theorem globExts_all_ok (os : OS) (dir : String) :
    ∀ (exts acc files : List String), globExts os dir exts acc = .ok files →
      ∀ ae ∈ exts, ∃ fns, os.glob (os.join dir ("*" ++ ae)) = .ok fns := by
  intro exts
  induction exts with
  | nil => intro acc files _ ae hae; simp at hae
  | cons ae0 aes ih =>
    intro acc files h ae hae
    unfold globExts at h
    cases hg : os.glob (os.join dir ("*" ++ ae0)) with
    | error e => simp [hg] at h
    | ok fns =>
      simp only [hg] at h
      rcases List.mem_cons.mp hae with rfl | hae
      · exact ⟨fns, hg⟩
      · exact ih _ _ h ae hae

/-- When the scan succeeds, every glob of every walked directory has
succeeded. -/
theorem globDirs_all_ok (os : OS) (exts : List String) :
    ∀ (dirs acc files : List String), globDirs os exts dirs acc = .ok files →
      ∀ d ∈ dirs, ∀ ae ∈ exts, ∃ fns, os.glob (os.join d ("*" ++ ae)) = .ok fns := by
  intro dirs
  induction dirs with
  | nil => intro acc files _ d hd; simp at hd
  | cons d0 ds ih =>
    intro acc files h d hd
    unfold globDirs at h
    cases hg : globExts os d0 exts acc with
    | error e => simp [hg] at h
    | ok files2 =>
      simp only [hg] at h
      rcases List.mem_cons.mp hd with rfl | hd
      · exact globExts_all_ok os d exts acc files2 hg
      · exact ih _ _ h d hd

/-- A scan that succeeds has walked the directories of the absolute root and
returns the matches of the glob patterns in them. -/
theorem scan_ok (cfg : AssetConfig) (os : OS) (dirs files : List String)
    (h : scan cfg os = .ok (dirs, files)) :
    ∃ ar, os.abs cfg.AssetRoot = .ok ar ∧ os.walkDirs ar = .ok dirs ∧
      (∀ d ∈ dirs, ∀ ae ∈ cfg.AssetExts, ∃ fns, os.glob (os.join d ("*" ++ ae)) = .ok fns) ∧
      ∀ q, q ∈ files ↔
        ∃ d ∈ dirs, ∃ ae ∈ cfg.AssetExts, ∃ fns,
          os.glob (os.join d ("*" ++ ae)) = .ok fns ∧ q ∈ fns := by
  unfold scan at h
  cases ha : os.abs cfg.AssetRoot with
  | error e => simp [ha] at h
  | ok ar =>
    cases hw : os.walkDirs ar with
    | error e => simp [ha, hw] at h
    | ok ds =>
      cases hg : globDirs os cfg.AssetExts ds [] with
      | error e => simp [ha, hw, hg] at h
      | ok fs =>
        simp [ha, hw, hg] at h
        obtain ⟨h1, h2⟩ := h
        subst h1
        subst h2
        refine ⟨ar, rfl, hw, globDirs_all_ok os cfg.AssetExts ds [] fs hg, ?_⟩
        intro q
        rw [globDirs_mem os cfg.AssetExts ds [] fs hg q]
        simp

/-- With a watcher in place the last part of `Init` only assigns the store. -/
theorem publish_watcher_some (c : coffer) (os : OS) (dirs : List String) (m : AssetMap)
    (calls : List MinifyCall) (w : Watcher) (hw : c.watcher = some w) :
    (publish c os dirs m calls).c = { c with assets := m } ∧
      (publish c os dirs m calls).err = none := by
  unfold publish
  simp [hw]

/-- An `Init` call either leaves the coffer as it was or ends in the last
part. -/
theorem Init_cases (c : coffer) (os : OS) :
    (c.Init os).c = c ∨ ∃ dirs m calls, c.Init os = publish c os dirs m calls := by
  cases hen : c.air.Config.CofferEnabled with
  | false => simp [coffer.Init, hen]
  | true =>
    cases hroot : rootNotExist os c.air.Config.AssetRoot with
    | true => simp [coffer.Init, hroot]
    | false =>
      cases hscan : scan c.air.Config os with
      | error e => simp [coffer.Init, hen, hroot, hscan]
      | ok df =>
        obtain ⟨dirs, files⟩ := df
        rw [Init_scanned c os dirs files hen hroot hscan]
        rcases hl : loadFiles c.air os files emptyAssets with ⟨calls, _ | m⟩
        · exact Or.inl rfl
        · exact Or.inr ⟨dirs, m, calls, rfl⟩

/-- An `Init` call on a coffer that has a watcher keeps that watcher, adds no
subscription to it and starts no watch loop. -/
theorem Init_watcher_some (c : coffer) (os : OS) (w : Watcher) (hw : c.watcher = some w) :
    (c.Init os).c.watcher = some w ∧ (c.Init os).c.watchLoops = c.watchLoops := by
  rcases Init_cases c os with h | ⟨dirs, m, calls, h⟩
  · rw [h]
    exact ⟨hw, rfl⟩
  · rw [h, (publish_watcher_some c os dirs m calls w hw).1]
    exact ⟨hw, rfl⟩

/-- A sequence of `Init` calls on a coffer that has a watcher keeps that
watcher and starts no watch loop. -/
theorem runInits_watcher_some (w : Watcher) :
    ∀ (oss : List OS) (c : coffer), c.watcher = some w →
      (runInits c oss).watcher = some w ∧ (runInits c oss).watchLoops = c.watchLoops := by
  intro oss
  induction oss with
  | nil => intro c hw; exact ⟨hw, rfl⟩
  | cons os rest ih =>
    intro c hw
    obtain ⟨h1, h2⟩ := Init_watcher_some c os w hw
    obtain ⟨h3, h4⟩ := ih (c.Init os).c h1
    exact ⟨h3, by rw [runInits, h4, h2]⟩

/-- An `Init` call keeps the invariant that at most one watch loop was started
and none while there is no watcher. -/
theorem Init_watchLoops_inv (c : coffer) (os : OS)
    (h : c.watchLoops ≤ 1 ∧ (c.watcher = none → c.watchLoops = 0)) :
    (c.Init os).c.watchLoops ≤ 1 ∧ ((c.Init os).c.watcher = none → (c.Init os).c.watchLoops = 0) := by
  rcases Init_cases c os with h1 | ⟨dirs, m, calls, h1⟩
  · rw [h1]
    exact h
  · rw [h1]
    unfold publish
    cases hw : c.watcher with
    | some w => simpa [hw] using h.1
    | none =>
      have h0 := h.2 hw
      cases hn : os.newWatcher with
      | some e => simp [hw, hn, h0]
      | none =>
        rcases hd : addDirs os dirs { paths := [] } with ⟨w, _ | e⟩ <;> simp [hw, hn, hd, h0]

/-- Over every sequence of `Init` calls on a new coffer the watch loop is
started at most once. -/
theorem runInits_watchLoops_le_one (a : Air) (oss : List OS) :
    (runInits (newCoffer a) oss).watchLoops ≤ 1 := by
  have key : ∀ (l : List OS) (c : coffer),
      (c.watchLoops ≤ 1 ∧ (c.watcher = none → c.watchLoops = 0)) →
      (runInits c l).watchLoops ≤ 1 := by
    intro l
    induction l with
    | nil => intro c h; exact h.1
    | cons os rest ih => intro c h; exact ih _ (Init_watchLoops_inv c os h)
  exact key oss (newCoffer a) ⟨by simp [newCoffer], fun _ => rfl⟩

/-- With minification enabled, after an `Init` that succeeds every scanned
file whose extension has no media type is stored with no content, and no
minifier call was made for it. -/
theorem Init_unmapped_empty (c : coffer) (os : OS) (dirs files : List String) (p : String)
    (hen : c.air.Config.CofferEnabled = true)
    (hroot : rootNotExist os c.air.Config.AssetRoot = false)
    (hmin : c.air.Config.AssetMinified = true)
    (herr : (c.Init os).err = none)
    (hscan : scan c.air.Config os = .ok (dirs, files))
    (hp : p ∈ files) (hmt : mediaType (Ext p) = none) :
    ∃ x, (c.Init os).c.Asset p = some x ∧ x.content = [] ∧ callsFor (c.Init os).calls p = [] := by
  obtain ⟨dirs2, files2, m, hscan2, hload⟩ := Init_ok_built c os hen hroot herr
  rw [hscan] at hscan2
  cases hscan2
  obtain ⟨hst, hcalls⟩ := Init_load_ok c os dirs files m hen hroot hscan hload
  obtain ⟨x, hx, hmx⟩ := (loadFiles_ok c.air os files emptyAssets m hload).1 p hp
  obtain ⟨hcontent, hnone⟩ := loadFile_unmapped_ok c.air os p x hmin hmt hx
  refine ⟨x, ?_, hcontent, ?_⟩
  · simp [coffer.Asset, hst, hmx]
  · rw [hcalls, loadFiles_calls c.air os p files emptyAssets m hload, hnone]
    simp

/-! ## The properties of the coffer -/

/-- C1: when caching is enabled, the root exists, the scan succeeds and the
load of some scanned file fails (its stat, its read or its minification),
`Init` returns the error of the first scanned file whose load fails and leaves
the coffer as it was: `Asset` answers every name as before the call. -/
theorem Init_load_failure_keeps_store (c : coffer) (os : OS) (dirs files : List String)
    (f : String) (e0 : Error)
    (hen : c.air.Config.CofferEnabled = true)
    (hroot : rootNotExist os c.air.Config.AssetRoot = false)
    (hscan : scan c.air.Config os = .ok (dirs, files))
    (hf : f ∈ files) (hfail : loadFails c.air os f e0) :
    ∃ pre g post e, files = pre ++ g :: post ∧
      (∀ h ∈ pre, ∀ e1, ¬ loadFails c.air os h e1) ∧ loadFails c.air os g e ∧
      (c.Init os).err = some e ∧ (c.Init os).c = c ∧
      ∀ name, (c.Init os).c.Asset name = c.Asset name := by
  obtain ⟨e, he⟩ := loadFiles_fails_of_mem c.air os f e0
    ((loadFile_error_iff c.air os f e0).mpr hfail) files emptyAssets hf
  obtain ⟨pre, g, post, hfs, hpre, hg⟩ := loadFiles_error c.air os e files emptyAssets he
  obtain ⟨h1, h2⟩ := Init_load_error c os dirs files e hen hroot hscan he
  refine ⟨pre, g, post, e, hfs, ?_, (loadFile_error_iff c.air os g e).mp hg, h1, h2, ?_⟩
  · intro h hh e1 hfl
    obtain ⟨x, hx⟩ := hpre h hh
    rw [(loadFile_error_iff c.air os h e1).mpr hfl] at hx
    cases hx
  · intro name
    rw [h2]

/-- The witness of C1: in the example scenario, after `site.css` became
unreadable, a rebuild fails with the read error and the asset loaded before is
still served. -/
theorem Init_load_failure_keeps_store_witness :
    loadFails siteCoffer.air siteOSUnreadable "/srv/assets/site.css" errDenied ∧
    siteCoffer.Asset "/srv/assets/site.css" =
      some ⟨"/srv/assets/site.css", 1700000123, siteBytes⟩ ∧
    ∃ pre g post e, ["/srv/assets/base.css", "/srv/assets/site.css"] = pre ++ g :: post ∧
      (∀ h ∈ pre, ∀ e1, ¬ loadFails siteCoffer.air siteOSUnreadable h e1) ∧
      loadFails siteCoffer.air siteOSUnreadable g e ∧
      (siteCoffer.Init siteOSUnreadable).err = some e ∧
      (siteCoffer.Init siteOSUnreadable).c = siteCoffer ∧
      ∀ name, (siteCoffer.Init siteOSUnreadable).c.Asset name = siteCoffer.Asset name :=
  have hfail : loadFails siteCoffer.air siteOSUnreadable "/srv/assets/site.css" errDenied :=
    Or.inr (Or.inl ⟨⟨1700000123⟩, rfl, rfl⟩)
  ⟨hfail, by decide,
    Init_load_failure_keeps_store siteCoffer siteOSUnreadable ["/srv/assets"]
      ["/srv/assets/base.css", "/srv/assets/site.css"] "/srv/assets/site.css" errDenied
      rfl rfl rfl (by decide) hfail⟩

/-- C2: with minification enabled, the asset stored for a scanned file whose
extension is none of the six of the switch is not the bytes of the file: for
`logo.png`, whose four bytes are read, `Init` succeeds and stores an asset
with no content. The minifier is not called. -/
theorem unmapped_extension_stored_empty :
    pngAir.Config.AssetMinified = true ∧
    scan pngAir.Config pngOS = .ok (["/srv/assets"], ["/srv/assets/logo.png"]) ∧
    mediaType (Ext "/srv/assets/logo.png") = none ∧
    pngOS.readFile "/srv/assets/logo.png" = .ok [137, 80, 78, 71] ∧
    ((newCoffer pngAir).Init pngOS).err = none ∧
    ((newCoffer pngAir).Init pngOS).c.Asset "/srv/assets/logo.png" =
      some ⟨"/srv/assets/logo.png", 1700000300, []⟩ ∧
    ((newCoffer pngAir).Init pngOS).calls = [] := by
  refine ⟨rfl, rfl, by decide, rfl, by decide, by decide, by decide⟩

/-- The counterexample of C3: with the overlapping extension filters `.js` and
`.min.js` the scan lists `app.min.js` twice, `Init` succeeds, and the minifier
is called twice for that file. -/
theorem minifier_called_twice :
    jsAir.Config.AssetMinified = true ∧
    scan jsAir.Config jsOS =
      .ok (["/srv/assets"], ["/srv/assets/app.min.js", "/srv/assets/app.min.js"]) ∧
    Ext "/srv/assets/app.min.js" = ".js" ∧
    ((newCoffer jsAir).Init jsOS).err = none ∧
    callsFor ((newCoffer jsAir).Init jsOS).calls "/srv/assets/app.min.js" =
      [⟨"/srv/assets/app.min.js", "text/javascript", jsBytes⟩,
       ⟨"/srv/assets/app.min.js", "text/javascript", jsBytes⟩] ∧
    (callsFor ((newCoffer jsAir).Init jsOS).calls "/srv/assets/app.min.js").length ≠ 1 := by
  refine ⟨rfl, rfl, by decide, by decide, by decide, by decide⟩

/-- C3 as amended: with minification enabled, after an `Init` that succeeds,
the asset stored for a scanned file with extension `.html`, `.css`, `.js`,
`.json`, `.xml` or `.svg` holds the output of the minifier on the bytes of the
file for the media type of that extension, and the minifier was called for
that file with that media type and those bytes once for each time the scan
lists the file: exactly once when the scan lists it once. -/
theorem Init_minified_store (c : coffer) (os : OS) (dirs files : List String) (p mt : String)
    (hen : c.air.Config.CofferEnabled = true)
    (hroot : rootNotExist os c.air.Config.AssetRoot = false)
    (hmin : c.air.Config.AssetMinified = true)
    (herr : (c.Init os).err = none)
    (hscan : scan c.air.Config os = .ok (dirs, files))
    (hp : p ∈ files) (hmt : mediaType (Ext p) = some mt) :
    ∃ fi b out, os.stat p = .ok fi ∧ os.readFile p = .ok b ∧ c.air.Minifier mt b = .ok out ∧
      (c.Init os).c.Asset p = some ⟨p, fi.modTime, out⟩ ∧
      callsFor (c.Init os).calls p = List.replicate (files.count p) ⟨p, mt, b⟩ ∧
      (files.count p = 1 → callsFor (c.Init os).calls p = [⟨p, mt, b⟩]) := by
  obtain ⟨dirs2, files2, m, hscan2, hload⟩ := Init_ok_built c os hen hroot herr
  rw [hscan] at hscan2
  cases hscan2
  obtain ⟨hst, hcalls⟩ := Init_load_ok c os dirs files m hen hroot hscan hload
  obtain ⟨x, hx, hmx⟩ := (loadFiles_ok c.air os files emptyAssets m hload).1 p hp
  obtain ⟨fi, b, out, hs, hr, hmo, hxe, hone⟩ := loadFile_minified_ok c.air os p mt x hmin hmt hx
  have hall : callsFor (c.Init os).calls p = List.replicate (files.count p) ⟨p, mt, b⟩ := by
    rw [hcalls, loadFiles_calls c.air os p files emptyAssets m hload, hone]
    generalize files.count p = n
    induction n with
    | zero => simp
    | succ k ih => simp [List.replicate_succ, ih]
  refine ⟨fi, b, out, hs, hr, hmo, ?_, hall, ?_⟩
  · simp [coffer.Asset, hst, hmx, hxe]
  · intro h1
    rw [hall, h1]
    rfl

/-- The witness of C3 as amended: the example scenario, where the scan lists
`site.css` once. -/
theorem Init_minified_store_witness :
    ((newCoffer siteAir).Init siteOS).err = none ∧
    ∃ fi b out, siteOS.stat "/srv/assets/site.css" = .ok fi ∧
      siteOS.readFile "/srv/assets/site.css" = .ok b ∧
      (newCoffer siteAir).air.Minifier "text/css" b = .ok out ∧
      ((newCoffer siteAir).Init siteOS).c.Asset "/srv/assets/site.css" =
        some ⟨"/srv/assets/site.css", fi.modTime, out⟩ ∧
      callsFor ((newCoffer siteAir).Init siteOS).calls "/srv/assets/site.css" =
        List.replicate (["/srv/assets/site.css"].count "/srv/assets/site.css")
          ⟨"/srv/assets/site.css", "text/css", b⟩ ∧
      ((["/srv/assets/site.css"].count "/srv/assets/site.css" = 1) →
        callsFor ((newCoffer siteAir).Init siteOS).calls "/srv/assets/site.css" =
          [⟨"/srv/assets/site.css", "text/css", b⟩]) :=
  ⟨by decide,
    Init_minified_store (newCoffer siteAir) siteOS ["/srv/assets"] ["/srv/assets/site.css"]
      "/srv/assets/site.css" "text/css" rfl rfl rfl (by decide) rfl (by decide) (by decide)⟩

/-- C4: with caching enabled, a root that exists and minification disabled,
after an `Init` that succeeds the scan has walked the directories of the
absolute root and every glob of a visited directory with a configured
extension has succeeded; every file `p` found by the scan, that is every match
of such a glob, is found by `Asset(p)` with name `p`, the modification time of
the file and the bytes of the file; and every name that is no such match is
not found. -/
theorem Init_plain_store (c : coffer) (os : OS)
    (hen : c.air.Config.CofferEnabled = true)
    (hroot : rootNotExist os c.air.Config.AssetRoot = false)
    (hmin : c.air.Config.AssetMinified = false)
    (herr : (c.Init os).err = none) :
    ∃ ar dirs files, os.abs c.air.Config.AssetRoot = .ok ar ∧ os.walkDirs ar = .ok dirs ∧
      scan c.air.Config os = .ok (dirs, files) ∧
      (∀ d ∈ dirs, ∀ ae ∈ c.air.Config.AssetExts,
        ∃ fns, os.glob (os.join d ("*" ++ ae)) = .ok fns) ∧
      (∀ p, p ∈ files ↔
        ∃ d ∈ dirs, ∃ ae ∈ c.air.Config.AssetExts, ∃ fns,
          os.glob (os.join d ("*" ++ ae)) = .ok fns ∧ p ∈ fns) ∧
      (∀ d ∈ dirs, ∀ ae ∈ c.air.Config.AssetExts, ∀ fns,
        os.glob (os.join d ("*" ++ ae)) = .ok fns → ∀ p ∈ fns,
          ∃ fi b x, os.stat p = .ok fi ∧ os.readFile p = .ok b ∧
            (c.Init os).c.Asset p = some x ∧
            x.Name = p ∧ x.ModTime = fi.modTime ∧ x.content = b) ∧
      (∀ q, (¬ ∃ d ∈ dirs, ∃ ae ∈ c.air.Config.AssetExts, ∃ fns,
          os.glob (os.join d ("*" ++ ae)) = .ok fns ∧ q ∈ fns) →
        (c.Init os).c.Asset q = none) := by
  obtain ⟨dirs, files, m, hscan, hload⟩ := Init_ok_built c os hen hroot herr
  obtain ⟨ar, habs, hwalk, hall, hmem⟩ := scan_ok c.air.Config os dirs files hscan
  obtain ⟨hst, _⟩ := Init_load_ok c os dirs files m hen hroot hscan hload
  obtain ⟨h1, h2⟩ := loadFiles_ok c.air os files emptyAssets m hload
  refine ⟨ar, dirs, files, habs, hwalk, hscan, hall, hmem, ?_, ?_⟩
  · intro d hd ae hae fns hg p hp
    have hpf : p ∈ files := (hmem p).mpr ⟨d, hd, ae, hae, fns, hg, hp⟩
    obtain ⟨x, hx, hmx⟩ := h1 p hpf
    obtain ⟨fi, b, hs, hr, hxe⟩ := loadFile_plain_ok c.air os p x hmin hx
    refine ⟨fi, b, x, hs, hr, ?_, ?_, ?_, ?_⟩
    · simp [coffer.Asset, hst, hmx]
    · simp [hxe, Asset.Name]
    · simp [hxe, Asset.ModTime]
    · simp [hxe]
  · intro q hq
    have hqf : q ∉ files := fun hqf => hq ((hmem q).mp hqf)
    simp [coffer.Asset, hst, h2 q hqf, emptyAssets]

/-- The witness of C4: the example scenario with minification off, where the
glob of `/srv/assets` matches `site.css` and the file is found with its
bytes. -/
theorem Init_plain_store_witness :
    ((newCoffer plainAir).Init siteOS).err = none ∧
    siteOS.glob (siteOS.join "/srv/assets" ("*" ++ ".css")) = .ok ["/srv/assets/site.css"] ∧
    ((newCoffer plainAir).Init siteOS).c.Asset "/srv/assets/site.css" =
      some ⟨"/srv/assets/site.css", 1700000123, siteBytes⟩ ∧
    ∃ ar dirs files, siteOS.abs (newCoffer plainAir).air.Config.AssetRoot = .ok ar ∧
      siteOS.walkDirs ar = .ok dirs ∧
      scan (newCoffer plainAir).air.Config siteOS = .ok (dirs, files) ∧
      (∀ d ∈ dirs, ∀ ae ∈ (newCoffer plainAir).air.Config.AssetExts,
        ∃ fns, siteOS.glob (siteOS.join d ("*" ++ ae)) = .ok fns) ∧
      (∀ p, p ∈ files ↔
        ∃ d ∈ dirs, ∃ ae ∈ (newCoffer plainAir).air.Config.AssetExts, ∃ fns,
          siteOS.glob (siteOS.join d ("*" ++ ae)) = .ok fns ∧ p ∈ fns) ∧
      (∀ d ∈ dirs, ∀ ae ∈ (newCoffer plainAir).air.Config.AssetExts, ∀ fns,
        siteOS.glob (siteOS.join d ("*" ++ ae)) = .ok fns → ∀ p ∈ fns,
          ∃ fi b x, siteOS.stat p = .ok fi ∧ siteOS.readFile p = .ok b ∧
            ((newCoffer plainAir).Init siteOS).c.Asset p = some x ∧
            x.Name = p ∧ x.ModTime = fi.modTime ∧ x.content = b) ∧
      (∀ q, (¬ ∃ d ∈ dirs, ∃ ae ∈ (newCoffer plainAir).air.Config.AssetExts, ∃ fns,
          siteOS.glob (siteOS.join d ("*" ++ ae)) = .ok fns ∧ q ∈ fns) →
        ((newCoffer plainAir).Init siteOS).c.Asset q = none) :=
  ⟨by decide, rfl, by decide,
    Init_plain_store (newCoffer plainAir) siteOS rfl rfl rfl (by decide)⟩

/-- The counterexample of C5: in the example scenario on a new coffer, when
`fsnotify.NewWatcher` fails, and likewise when `Watcher.Add` fails, `Init`
returns the error and the store is no longer the empty store from before the
call: it serves the asset just built. -/
theorem Init_watcher_error_changes_store :
    (newCoffer siteAir).Asset "/srv/assets/site.css" = none ∧
    ((newCoffer siteAir).Init siteOSNoWatcher).err = some errDenied ∧
    ((newCoffer siteAir).Init siteOSNoWatcher).c.Asset "/srv/assets/site.css" =
      some ⟨"/srv/assets/site.css", 1700000123, siteBytes⟩ ∧
    ((newCoffer siteAir).Init siteOSAddFails).err = some errDenied ∧
    ((newCoffer siteAir).Init siteOSAddFails).c.Asset "/srv/assets/site.css" =
      some ⟨"/srv/assets/site.css", 1700000123, siteBytes⟩ := by
  refine ⟨by decide, by decide, by decide, by decide, by decide⟩

/-- C5 as amended: if `Init` returns an error of the scan, the load or the
minifier, the coffer afterwards is the coffer from before the call. The store
is only ever changed by an `Init` call whose scan and load succeed, and such a
call replaces it wholesale with the newly built mapping, whether it then
returns success or an error of the watcher creation or subscription. -/
theorem Init_store_change (c : coffer) (os : OS) :
    (∀ e, c.air.Config.CofferEnabled = true →
      rootNotExist os c.air.Config.AssetRoot = false →
      (scan c.air.Config os = .error e ∨
        ∃ dirs files, scan c.air.Config os = .ok (dirs, files) ∧
          (loadFiles c.air os files emptyAssets).2 = .error e) →
      (c.Init os).err = some e ∧ (c.Init os).c = c) ∧
    ((c.Init os).c.assets = c.assets ∨
      ∃ dirs files m, c.air.Config.CofferEnabled = true ∧
        rootNotExist os c.air.Config.AssetRoot = false ∧
        scan c.air.Config os = .ok (dirs, files) ∧
        (loadFiles c.air os files emptyAssets).2 = .ok m ∧ (c.Init os).c.assets = m) ∧
    (∀ dirs files m, c.air.Config.CofferEnabled = true →
      rootNotExist os c.air.Config.AssetRoot = false →
      scan c.air.Config os = .ok (dirs, files) →
      (loadFiles c.air os files emptyAssets).2 = .ok m → (c.Init os).c.assets = m) := by
  refine ⟨?_, ?_, ?_⟩
  · intro e hen hroot h
    rcases h with hscan | ⟨dirs, files, hscan, hload⟩
    · simp [coffer.Init, hen, hroot, hscan]
    · exact Init_load_error c os dirs files e hen hroot hscan hload
  · cases hen : c.air.Config.CofferEnabled with
    | false => exact Or.inl (by simp [coffer.Init, hen])
    | true =>
      cases hroot : rootNotExist os c.air.Config.AssetRoot with
      | true => exact Or.inl (by simp [coffer.Init, hroot])
      | false =>
        cases hscan : scan c.air.Config os with
        | error e => exact Or.inl (by simp [coffer.Init, hen, hroot, hscan])
        | ok df =>
          obtain ⟨dirs, files⟩ := df
          cases hload : (loadFiles c.air os files emptyAssets).2 with
          | error e =>
            exact Or.inl (by rw [(Init_load_error c os dirs files e hen hroot hscan hload).2])
          | ok m =>
            exact Or.inr ⟨dirs, files, m, rfl, rfl, rfl, hload,
              (Init_load_ok c os dirs files m hen hroot hscan hload).1⟩
  · intro dirs files m hen hroot hscan hload
    exact (Init_load_ok c os dirs files m hen hroot hscan hload).1

/-- The witness of C5 as amended: a rebuild that fails on an unreadable file
leaves the loaded coffer as it was, and a first `Init` whose watcher creation
fails has replaced the store with the mapping it built. -/
theorem Init_store_change_witness :
    ((siteCoffer.Init siteOSUnreadable).err = some errDenied ∧
      (siteCoffer.Init siteOSUnreadable).c = siteCoffer) ∧
    ((newCoffer siteAir).Init siteOSNoWatcher).err = some errDenied ∧
    ((newCoffer siteAir).Init siteOSNoWatcher).c.assets =
      emptyAssets.set "/srv/assets/site.css" ⟨"/srv/assets/site.css", 1700000123, siteBytes⟩ :=
  ⟨(Init_store_change siteCoffer siteOSUnreadable).1 errDenied rfl rfl
      (Or.inr ⟨["/srv/assets"], ["/srv/assets/base.css", "/srv/assets/site.css"], rfl, rfl⟩),
    by decide,
    (Init_store_change (newCoffer siteAir) siteOSNoWatcher).2.2 ["/srv/assets"]
      ["/srv/assets/site.css"] _ rfl rfl rfl rfl⟩

/-- C6: if caching is disabled or the asset root does not exist, `Init`
returns no error and leaves the coffer, so the store and the watcher, exactly
as they were; a new coffer finds no asset under any name, before and after
such an `Init`. -/
theorem Init_noop (c : coffer) (os : OS)
    (h : c.air.Config.CofferEnabled = false ∨
      rootNotExist os c.air.Config.AssetRoot = true) :
    (c.Init os).err = none ∧ (c.Init os).c = c ∧
    (c.Init os).c.assets = c.assets ∧ (c.Init os).c.watcher = c.watcher ∧
    (∀ x, (newCoffer c.air).Asset x = none) ∧
    ((newCoffer c.air).Init os).err = none ∧
    (∀ x, ((newCoffer c.air).Init os).c.Asset x = none) := by
  have key : ∀ c2 : coffer, c2.air = c.air →
      (c2.Init os).err = none ∧ (c2.Init os).c = c2 := by
    intro c2 hc2
    rcases h with h | h
    · simp [coffer.Init, hc2, h]
    · cases hen : c.air.Config.CofferEnabled <;> simp [coffer.Init, hc2, h, hen]
  obtain ⟨h1, h2⟩ := key c rfl
  obtain ⟨h3, h4⟩ := key (newCoffer c.air) rfl
  refine ⟨h1, h2, by rw [h2], by rw [h2], fun x => rfl, h3, ?_⟩
  intro x
  rw [h4]
  rfl

/-- The witness of C6: in the example scenario, after the root directory was
removed, `Init` on the loaded coffer is a no-op. -/
theorem Init_noop_witness :
    rootNotExist siteOSRootGone siteCoffer.air.Config.AssetRoot = true ∧
    (siteCoffer.Init siteOSRootGone).err = none ∧
    (siteCoffer.Init siteOSRootGone).c = siteCoffer ∧
    (siteCoffer.Init siteOSRootGone).c.assets = siteCoffer.assets ∧
    (siteCoffer.Init siteOSRootGone).c.watcher = siteCoffer.watcher ∧
    (∀ x, (newCoffer siteCoffer.air).Asset x = none) ∧
    ((newCoffer siteCoffer.air).Init siteOSRootGone).err = none ∧
    (∀ x, ((newCoffer siteCoffer.air).Init siteOSRootGone).c.Asset x = none) :=
  ⟨by decide, Init_noop siteCoffer siteOSRootGone (Or.inr (by decide))⟩

/-- The counterexample of C7: in the example scenario, run from the working
directory `/srv`, `Init` succeeds and `Asset("assets/site.css")` is not found;
the asset is stored under the absolute path `/srv/assets/site.css`. -/
theorem relative_key_not_found :
    siteAir.Config.AssetRoot = "assets" ∧ siteAir.Config.AssetExts = [".css"] ∧
    siteAir.Config.AssetMinified = true ∧
    siteOS.abs "assets" = .ok "/srv/assets" ∧
    siteOS.readFile "/srv/assets/site.css" = .ok (asciiBytes "a\x7bcolor:red\x7d") ∧
    ((newCoffer siteAir).Init siteOS).err = none ∧
    ((newCoffer siteAir).Init siteOS).c.Asset "assets/site.css" = none ∧
    ((newCoffer siteAir).Init siteOS).c.Asset "/srv/assets/site.css" =
      some ⟨"/srv/assets/site.css", 1700000123, asciiBytes "a\x7bcolor:red\x7d"⟩ := by
  refine ⟨rfl, rfl, rfl, rfl, rfl, by decide, by decide, by decide⟩

/-- C7 as amended: for every configuration, after an `Init` that succeeds
with caching enabled and a root that exists, the scan has walked the
directories of the absolute form of the configured root (`filepath.Abs`), the
lookup key of each asset is a match of a glob of a configured extension in one
of those directories and is the name of its asset, and every such match is a
key. With the root configured as the relative path `assets`, extensions
`.css`, minification on and a transformer that returns the content of
`site.css` unchanged for `text/css`, the file is found under the path the scan
produced for it, with content `a{color:red}` and the modification time of the
file. -/
theorem Init_keys_scanned (c : coffer) (os : OS)
    (hen : c.air.Config.CofferEnabled = true)
    (hroot : rootNotExist os c.air.Config.AssetRoot = false)
    (herr : (c.Init os).err = none) :
    ∃ ar dirs, os.abs c.air.Config.AssetRoot = .ok ar ∧ os.walkDirs ar = .ok dirs ∧
      (∀ q x, (c.Init os).c.Asset q = some x →
        x.Name = q ∧ ∃ d ∈ dirs, ∃ ae ∈ c.air.Config.AssetExts, ∃ fns,
          os.glob (os.join d ("*" ++ ae)) = .ok fns ∧ q ∈ fns) ∧
      (∀ d ∈ dirs, ∀ ae ∈ c.air.Config.AssetExts, ∀ fns,
        os.glob (os.join d ("*" ++ ae)) = .ok fns → ∀ q ∈ fns,
          ∃ x, (c.Init os).c.Asset q = some x) ∧
      (c.air.Config.AssetRoot = "assets" → c.air.Config.AssetExts = [".css"] →
        c.air.Config.AssetMinified = true →
        os.abs "assets" = .ok ar ∧
        ∀ d ∈ dirs, ∀ fns, os.glob (os.join d "*.css") = .ok fns → ∀ p ∈ fns, ∀ fi,
          Ext p = ".css" → os.stat p = .ok fi → os.readFile p = .ok siteBytes →
          c.air.Minifier "text/css" siteBytes = .ok siteBytes →
          (c.Init os).c.Asset p = some ⟨p, fi.modTime, siteBytes⟩) := by
  obtain ⟨dirs, files, m, hscan, hload⟩ := Init_ok_built c os hen hroot herr
  obtain ⟨ar, habs, hwalk, _, hmem⟩ := scan_ok c.air.Config os dirs files hscan
  obtain ⟨hst, _⟩ := Init_load_ok c os dirs files m hen hroot hscan hload
  obtain ⟨h1, h2⟩ := loadFiles_ok c.air os files emptyAssets m hload
  refine ⟨ar, dirs, habs, hwalk, ?_, ?_, ?_⟩
  · intro q x hq
    simp only [coffer.Asset, hst] at hq
    by_cases hqf : q ∈ files
    · obtain ⟨y, hy, hmy⟩ := h1 q hqf
      rw [hmy] at hq
      cases hq
      refine ⟨?_, (hmem q).mp hqf⟩
      unfold loadFile at hy
      cases hs : os.stat q with
      | error e => simp [hs] at hy
      | ok fi3 =>
        cases hr : os.readFile q with
        | error e => simp [hs, hr] at hy
        | ok b =>
          cases hmin : c.air.Config.AssetMinified with
          | false =>
            simp [hs, hr, hmin, NewAsset] at hy
            simp [← hy, Asset.Name]
          | true =>
            simp only [hs, hr, hmin, if_true] at hy
            rcases hsw : minifySwitch c.air.Minifier q b with ⟨calls, _ | out⟩
            · simp [hsw] at hy
            · simp [hsw, NewAsset] at hy
              simp [← hy, Asset.Name]
    · rw [h2 q hqf] at hq
      simp [emptyAssets] at hq
  · intro d hd ae hae fns hg q hq
    have hqf : q ∈ files := (hmem q).mpr ⟨d, hd, ae, hae, fns, hg, hq⟩
    obtain ⟨x, _, hmx⟩ := h1 q hqf
    exact ⟨x, by simp [coffer.Asset, hst, hmx]⟩
  · intro hrootname hexts hmin
    refine ⟨by rw [← hrootname]; exact habs, ?_⟩
    intro d hd fns hglob p hp fi hext hstat hread hid
    have hstar : "*" ++ ".css" = "*.css" := by decide
    have hpf : p ∈ files := by
      rw [hmem p]
      exact ⟨d, hd, ".css", by simp [hexts], fns, by rw [hstar]; exact hglob, hp⟩
    obtain ⟨x, hx, hmx⟩ := h1 p hpf
    have hmt : mediaType (Ext p) = some "text/css" := by rw [hext]; decide
    obtain ⟨fi2, b, out, hs, hr, hmo, hxe, _⟩ :=
      loadFile_minified_ok c.air os p "text/css" x hmin hmt hx
    rw [hstat] at hs
    cases hs
    rw [hread] at hr
    cases hr
    rw [hid] at hmo
    cases hmo
    simp [coffer.Asset, hst, hmx, hxe]

/-- The witness of C7 as amended: the example scenario run from `/srv`, where
the absolute root is `/srv/assets` and the key is `/srv/assets/site.css`. -/
theorem Init_keys_scanned_witness :
    ((newCoffer siteAir).Init siteOS).err = none ∧
    siteOS.abs "assets" = .ok "/srv/assets" ∧
    ((newCoffer siteAir).Init siteOS).c.Asset "/srv/assets/site.css" =
      some ⟨"/srv/assets/site.css", 1700000123, siteBytes⟩ ∧
    ∀ q x, ((newCoffer siteAir).Init siteOS).c.Asset q = some x →
      x.Name = q ∧ ∃ d ∈ ["/srv/assets"], ∃ ae ∈ [".css"], ∃ fns,
        siteOS.glob (siteOS.join d ("*" ++ ae)) = .ok fns ∧ q ∈ fns := by
  have herr : ((newCoffer siteAir).Init siteOS).err = none := by decide
  obtain ⟨ar, dirs, habs, hwalk, hkeys, _, hex⟩ :=
    Init_keys_scanned (newCoffer siteAir) siteOS rfl (by decide) herr
  have habs2 : siteOS.abs "assets" = .ok "/srv/assets" := rfl
  have har : ar = "/srv/assets" := by
    have h := habs.symm.trans habs2
    cases h
    rfl
  subst har
  have hwalk2 : siteOS.walkDirs "/srv/assets" = .ok ["/srv/assets"] := rfl
  have hdirs : dirs = ["/srv/assets"] := by
    have h := hwalk.symm.trans hwalk2
    cases h
    rfl
  subst hdirs
  refine ⟨herr, habs2, ?_, hkeys⟩
  exact (hex rfl rfl rfl).2 "/srv/assets" (by simp) ["/srv/assets/site.css"] rfl
    "/srv/assets/site.css" (by simp) ⟨1700000123⟩ (by decide) rfl rfl rfl

/-- C8: on a new coffer, a first `Init` whose subscription of the root
directory fails returns the error with the watcher already assigned; the
second `Init`, the first that succeeds with caching enabled and a root that
exists, finds that watcher and does not start the watch loop, and no later
`Init` call starts it either. -/
theorem watch_loop_never_started :
    siteAir.Config.CofferEnabled = true ∧
    rootNotExist siteOS siteAir.Config.AssetRoot = false ∧
    ((newCoffer siteAir).Init siteOSAddFails).err = some errDenied ∧
    ((newCoffer siteAir).Init siteOSAddFails).c.watcher = some ⟨[]⟩ ∧
    (((newCoffer siteAir).Init siteOSAddFails).c.Init siteOS).err = none ∧
    (runInits (newCoffer siteAir) [siteOSAddFails, siteOS]).watchLoops = 0 ∧
    (runInits (newCoffer siteAir) [siteOSAddFails, siteOS]).watcher = some ⟨[]⟩ ∧
    ∀ rest, (runInits (newCoffer siteAir) (siteOSAddFails :: siteOS :: rest)).watchLoops = 0 := by
  refine ⟨rfl, by decide, by decide, by decide, by decide, by decide, by decide, ?_⟩
  intro rest
  have hw : (runInits (newCoffer siteAir) [siteOSAddFails, siteOS]).watcher = some ⟨[]⟩ := by
    decide
  have h0 : (runInits (newCoffer siteAir) [siteOSAddFails, siteOS]).watchLoops = 0 := by
    decide
  have hrun : runInits (newCoffer siteAir) (siteOSAddFails :: siteOS :: rest) =
      runInits (runInits (newCoffer siteAir) [siteOSAddFails, siteOS]) rest := rfl
  rw [hrun, (runInits_watcher_some ⟨[]⟩ rest _ hw).2, h0]

/-! ## The comparison functions -/

/-- The body of `ge` is the body of a call to `lt`. -/
theorem ge_eq_lt (a b : Value) : ge a b = lt a b := rfl

/-- On equal operands of an ordered kind `ge` answers false. -/
theorem ge_self_false (a : Value) (h : sameOrderedKind a a = true) : ge a a = some false := by
  cases a with
  | int k v => simp [ge, lt]
  | uint k v => simp [ge, lt]
  | str s => simp [ge, lt, String.lt_irrefl]
  | other t => simp [sameOrderedKind] at h

/-- On two values of the same ordered kind `ge` answers the opposite of
`a >= b`. -/
theorem ge_eq_not_geSpec (a b : Value) (h : sameOrderedKind a b = true) :
    ge a b = (geSpec a b).map (fun r => !r) := by
  cases a with
  | int k x =>
    cases b with
    | int k2 y =>
      show some (decide (x < y)) = some (!decide (y ≤ x))
      by_cases hxy : x < y
      · simp [hxy]
      · simp [hxy, not_lt.mp hxy]
    | uint k2 y => simp [sameOrderedKind] at h
    | str t => simp [sameOrderedKind] at h
    | other t => simp [sameOrderedKind] at h
  | uint k x =>
    cases b with
    | int k2 y => simp [sameOrderedKind] at h
    | uint k2 y =>
      show some (decide (x < y)) = some (!decide (y ≤ x))
      by_cases hxy : x < y
      · simp [hxy]
      · simp [hxy, not_lt.mp hxy]
    | str t => simp [sameOrderedKind] at h
    | other t => simp [sameOrderedKind] at h
  | str s =>
    cases b with
    | int k2 y => simp [sameOrderedKind] at h
    | uint k2 y => simp [sameOrderedKind] at h
    | str t =>
      show some (decide (s < t)) = some (!decide (¬ s < t))
      by_cases hst : s < t <;> simp [hst]
    | other t => simp [sameOrderedKind] at h
  | other u => simp [sameOrderedKind] at h

/-- C9: `ge` returns `lt(a, b)`, not `a >= b`: on the equal integers 1 and 1
and on the strings "b" and "a" it answers false where `a >= b` holds, and on
the unsigned integers 1 and 2 it answers true where `a >= b` fails; on each of
these inputs `lt` itself is right, so `ge(a, b)` is not `not lt(a, b)`. -/
theorem ge_answers_lt :
    ge (.int .int 1) (.int .int 1) = some false ∧
    geSpec (.int .int 1) (.int .int 1) = some true ∧
    ge (.str "b") (.str "a") = some false ∧
    geSpec (.str "b") (.str "a") = some true ∧
    ge (.uint .uint8 1) (.uint .uint8 2) = some true ∧
    geSpec (.uint .uint8 1) (.uint .uint8 2) = some false ∧
    (∀ a b : Value, ge a b = lt a b) := by
  have hs : ¬ ("b" < "a") := by
    rw [String.lt_iff_toList_lt]
    decide
  refine ⟨by decide, by decide, ?_, ?_, by decide, by decide, ?_⟩
  · simp [ge, lt, hs]
  · simp [geSpec, hs]
  · intro a b
    rfl

/-! ## NewConfig -/

/-- Without a config file `NewConfig` returns `defaultConfig` under the given
application name. -/
theorem NewConfig_no_file (appName : String) :
    NewConfig none appName = some { defaultConfig with AppName := appName } := rfl

/-- C10: with a config file that has no entry for the given name `NewConfig`
does not return `defaultConfig` under that name: with two entries it panics,
and with a single entry it returns that entry's configuration under that
entry's name. -/
theorem NewConfig_unknown_app :
    twoApps.lookup "wiki" = none ∧
    NewConfig (some twoApps) "wiki" = none ∧
    oneApp.lookup "wiki" = none ∧
    NewConfig (some oneApp) "wiki" =
      some { defaultConfig with
        AppName := "blog",
        JSON := some [("address", .string "localhost:9000")],
        Address := "localhost:9000" } := by
  refine ⟨by rfl, by rfl, by rfl, by rfl⟩

end air
